import Mathlib

/-!
Verification development for the metadata-api repository (favicon / OpenGraph
discovery service).  The definitions below are a shallow embedding of the
TypeScript sources:

* `src/src/lib/page-analyzer.ts` — `analyzePage`, the candidate extractors,
  `calculateFaviconScore`, `calculateOGScore`, `parseSizes`, `resolveUrl`;
* `src/src/lib/metadata-extractor.ts` — `extractMetadata`;
* `src/unnamed/part_000` (OG-finder module) — `fetchBestOGImage`,
  `detectFormat`, `resolveUrl`;
* `src/src/index.ts` — `handleFallback`.

Network effects (HTML fetch, manifest fetch, per-candidate image fetch) are
modelled by explicit environment records whose fields give the outcome of each
outbound call; JavaScript exceptions become `Option`/sum results; JS string
falsiness (`""`, `undefined`) and number falsiness (`0`, `NaN`) are modelled
explicitly where the code relies on them.  Buffers are `List Nat` (byte
values).  `parseInt` results that would be `NaN` are modelled as `none`
(observationally equal inside the scoring code, which only uses truthiness).
-/

/-- JS `sub ∈ s` substring test (`String.prototype.includes`). -/
def strIncludes (s sub : String) : Bool :=
  decide (List.IsInfix sub.toList s.toList)

/-- JS `s.startsWith(pre)` (char-list implementation, so that concrete runs
evaluate inside the kernel). -/
def strStartsWith (s pre : String) : Bool :=
  pre.toList.isPrefixOf s.toList

/-- JS `s.trim()`: strip leading and trailing whitespace. -/
def jsTrim (s : String) : String :=
  String.mk (((s.toList.dropWhile Char.isWhitespace).reverse.dropWhile
    Char.isWhitespace).reverse)

/-- JS `s.split('.').pop()`: the suffix after the last `.`, or the whole
string when it has no `.`. -/
def lastDotComponent (s : String) : String :=
  String.mk ((s.toList.reverse.takeWhile (fun c => c ≠ '.')).reverse)

/-- Modelled from the spec: `isDataUrl` from `src/lib/validators.ts` (file not
in the provided sources).  The spec calls these references "inline
data-encoded images" / "data URIs", so the test is a `data:` scheme check. -/
def isDataUrl (url : String) : Bool :=
  strStartsWith url "data:"

/-- JS `a || b` on optional strings: `undefined` and `""` are falsy. -/
def jsOrStr (a b : Option String) : Option String :=
  match a with
  | some s => if s = "" then b else some s
  | none => b

/-- JS truthiness of an optional string. -/
def optStrTruthy : Option String → Bool
  | none => false
  | some s => s ≠ ""

/-- JS truthiness of an optional integer (`0` is falsy). -/
def optIntTruthy : Option Int → Bool
  | none => false
  | some n => n ≠ 0

/-- JS truthiness of an optional natural number (`0` is falsy). -/
def optNatTruthy : Option Nat → Bool
  | none => false
  | some n => n ≠ 0

/-- Digit run at the head of a character list, as a number (`none` if the
first character is not a digit).  Used to model `parseInt(_, 10)`. -/
def leadingDigits (cs : List Char) : Option Nat :=
  let ds := cs.takeWhile (·.isDigit)
  if ds.isEmpty then none
  else some (ds.foldl (fun a c => a * 10 + (c.toNat - 48)) 0)

/-- JS `parseInt(s, 10)`: skip leading whitespace, optional sign, then a digit
prefix; `NaN` (no digits) is modelled as `none`. -/
def jsParseInt (s : String) : Option Int :=
  let cs := s.toList.dropWhile (·.isWhitespace)
  match cs with
  | '-' :: rest => (leadingDigits rest).map (fun n => -(n : Int))
  | '+' :: rest => (leadingDigits rest).map (fun n => (n : Int))
  | _ => (leadingDigits cs).map (fun n => (n : Int))

/-- `resolveUrl` from page-analyzer.ts lines 427-433 (the OG-finder module
carries a character-identical copy at part_000 lines 286-305). -/
def resolveUrl (url baseUrl : String) : String :=
  if isDataUrl url then url
  else if strStartsWith url "http" then url
  else if strStartsWith url "//" then "https:" ++ url
  else if strStartsWith url "/" then baseUrl ++ url
  else baseUrl ++ "/" ++ url

/-- `parseSizes`: first match of the regex `(\d+)x\d+` in the `sizes`
attribute, returning the first captured digit run.  The regex scan is
leftmost-first; at each start position the engine needs a maximal digit run
followed by `x` followed by at least one digit. -/
def sizesScan : List Char → Option Nat
  | [] => none
  | c :: rest =>
    if c.isDigit then
      let ds := (c :: rest).takeWhile (·.isDigit)
      let tail := (c :: rest).dropWhile (·.isDigit)
      match tail with
      | 'x' :: d :: _ =>
        if d.isDigit then
          some (ds.foldl (fun a ch => a * 10 + (ch.toNat - 48)) 0)
        else sizesScan rest
      | _ => sizesScan rest
    else sizesScan rest

/-- `parseSizes` from page-analyzer.ts lines 363-367. -/
def parseSizes (sizes : Option String) : Option Nat :=
  match sizes with
  | none => none
  | some s => if s = "" then none else sizesScan s.toList

/-- `type?.includes(sub)` where the type may be absent. -/
def typeIncludes (type : Option String) (sub : String) : Bool :=
  match type with
  | none => false
  | some t => strIncludes t sub

/-- `calculateFaviconScore` from page-analyzer.ts lines 369-392.  The `if
(size)` guard keeps JS truthiness (`0` is falsy). -/
def calculateFaviconScore (size : Option Nat) (type : Option String) (rel : String) : Int :=
  let base : Int := 50
  let svgBonus : Int := if typeIncludes type "svg" then 100 else 0
  let sizeBonus : Int :=
    match size with
    | none => 0
    | some n =>
      if n = 0 then 0
      else if n ≥ 512 then 90
      else if n ≥ 256 then 80
      else if n ≥ 192 then 70
      else if n ≥ 128 then 60
      else if n ≥ 64 then 50
      else if n ≥ 32 then 40
      else 0
  let formatBonus : Int :=
    if typeIncludes type "png" then 20
    else if typeIncludes type "webp" then 15
    else if typeIncludes type "gif" then 10
    else if typeIncludes type "ico" then 5
    else 0
  let relBonus : Int :=
    (if strIncludes rel "apple-touch-icon" then 10 else 0) +
    (if strIncludes rel "mask-icon" then -10 else 0)
  base + svgBonus + sizeBonus + formatBonus + relBonus

/-- `calculateOGScore` from page-analyzer.ts lines 394-425 (identical to
`calculateScore` in the OG-finder module, part_000 lines 244-281).  `width`
and `height` follow JS truthiness: `0`/`NaN`/`undefined` are falsy, so the
dimension branches mirror `if (width && height)` / `else if (width || height)`
and `width || height || 0`. -/
def calculateOGScore (width height : Option Int) (source : String) (type : Option String) : Int :=
  let base : Int := 50
  let sourceBonus : Int :=
    if source = "og:image" then 100
    else if source = "twitter:image" then 80
    else if source = "schema.org" then 60
    else 0
  let dimBonus : Int :=
    if optIntTruthy width && optIntTruthy height then
      let area := width.getD 0 * height.getD 0
      if area ≥ 1200 * 630 then 90
      else if area ≥ 800 * 600 then 80
      else if area ≥ 600 * 400 then 70
      else if area ≥ 400 * 300 then 60
      else if area ≥ 300 * 200 then 50
      else 0
    else if optIntTruthy width || optIntTruthy height then
      let dimension := if optIntTruthy width then width.getD 0
        else if optIntTruthy height then height.getD 0 else 0
      if dimension ≥ 1200 then 70
      else if dimension ≥ 800 then 60
      else if dimension ≥ 600 then 50
      else 0
    else 0
  let formatBonus : Int :=
    if typeIncludes type "png" then 20
    else if typeIncludes type "jpeg" || typeIncludes type "jpg" then 15
    else if typeIncludes type "webp" then 25
    else 0
  base + sourceBonus + dimBonus + formatBonus

/-- Hex digit used by `encodeURIComponent` (uppercase, as in JS). -/
def hexDigitChar (n : Nat) : Char :=
  if n < 10 then Char.ofNat (48 + n) else Char.ofNat (55 + n)

/-- Percent-encoding of one byte. -/
def pctByte (b : Nat) : List Char :=
  [Char.ofNat 37, hexDigitChar (b / 16), hexDigitChar (b % 16)]

/-- UTF-8 bytes of a character. -/
def utf8Bytes (c : Char) : List Nat :=
  let n := c.toNat
  if n < 0x80 then [n]
  else if n < 0x800 then [0xC0 + n / 0x40, 0x80 + n % 0x40]
  else if n < 0x10000 then [0xE0 + n / 0x1000, 0x80 + (n / 0x40) % 0x40, 0x80 + n % 0x40]
  else [0xF0 + n / 0x40000, 0x80 + (n / 0x1000) % 0x40, 0x80 + (n / 0x40) % 0x40, 0x80 + n % 0x40]

/-- Characters `encodeURIComponent` leaves unescaped. -/
def uriUnescaped (c : Char) : Bool :=
  c.isAlphanum || c.toNat ∈ [45, 95, 46, 33, 126, 42, 39, 40, 41]

/-- JS `encodeURIComponent`. -/
def encodeURIComponent (s : String) : String :=
  String.mk (s.toList.flatMap fun c =>
    if uriUnescaped c then [c] else (utf8Bytes c).flatMap pctByte)

/-- Stable insertion step of the candidate sort: `x` is placed before the
first element whose score is `≤` its own, so an earlier-extracted candidate
precedes later ones of equal score. -/
def insertByScoreDesc {α : Type} (score : α → Int) (x : α) : List α → List α
  | [] => [x]
  | y :: ys => if score y ≤ score x then x :: y :: ys else y :: insertByScoreDesc score x ys

/-- Model of the JS `list.sort((a, b) => b.score - a.score)` call (page-
analyzer.ts lines 91-92).  ECMAScript 2019+ requires `Array.prototype.sort`
to be stable, and the unique stable order consistent with that comparator is
"score descending, ties in original order", which this insertion sort
computes. -/
def sortByScoreDesc {α : Type} (score : α → Int) : List α → List α
  | [] => []
  | x :: xs => insertByScoreDesc score x (sortByScoreDesc score xs)

theorem mem_insertByScoreDesc {α : Type} (score : α → Int) (x z : α) (l : List α) :
    z ∈ insertByScoreDesc score x l ↔ z = x ∨ z ∈ l := by
  induction l with
  | nil => simp [insertByScoreDesc]
  | cons y ys ih =>
    simp only [insertByScoreDesc]
    split
    · simp
    · simp only [List.mem_cons, ih]
      tauto

theorem mem_sortByScoreDesc {α : Type} (score : α → Int) (z : α) (l : List α) :
    z ∈ sortByScoreDesc score l ↔ z ∈ l := by
  induction l with
  | nil => simp [sortByScoreDesc]
  | cons x xs ih =>
    simp only [sortByScoreDesc, mem_insertByScoreDesc, ih, List.mem_cons]

theorem pairwise_insertByScoreDesc {α : Type} (score : α → Int) (x : α) (l : List α)
    (h : l.Pairwise (fun a b => score b ≤ score a)) :
    (insertByScoreDesc score x l).Pairwise (fun a b => score b ≤ score a) := by
  induction l with
  | nil => simp [insertByScoreDesc]
  | cons y ys ih =>
    rcases List.pairwise_cons.1 h with ⟨hy, hys⟩
    simp only [insertByScoreDesc]
    split
    · rename_i hle
      refine List.pairwise_cons.2 ⟨?_, h⟩
      intro b hb
      rcases List.mem_cons.1 hb with rfl | hb
      · exact hle
      · exact le_trans (hy b hb) hle
    · rename_i hgt
      push_neg at hgt
      refine List.pairwise_cons.2 ⟨?_, ih hys⟩
      intro b hb
      rcases (mem_insertByScoreDesc score x b ys).1 hb with rfl | hb
      · exact le_of_lt hgt
      · exact hy b hb

theorem pairwise_sortByScoreDesc {α : Type} (score : α → Int) (l : List α) :
    (sortByScoreDesc score l).Pairwise (fun a b => score b ≤ score a) := by
  induction l with
  | nil => simp [sortByScoreDesc]
  | cons x xs ih => exact pairwise_insertByScoreDesc score x _ ih

theorem filter_insertByScoreDesc_eq {α : Type} (score : α → Int) (x : α) (l : List α) :
    (insertByScoreDesc score x l).filter (fun a => score a == score x)
      = x :: l.filter (fun a => score a == score x) := by
  induction l with
  | nil => simp [insertByScoreDesc]
  | cons y ys ih =>
    simp only [insertByScoreDesc]
    split
    · simp [List.filter]
    · rename_i hgt
      push_neg at hgt
      have hne : (score y == score x) = false := by
        simp only [beq_eq_false_iff_ne, ne_eq]
        intro hcontra
        exact (ne_of_gt hgt) hcontra
      simp only [List.filter, hne, ih]

theorem filter_insertByScoreDesc_ne {α : Type} (score : α → Int) (x : α) (l : List α)
    (s : Int) (h : score x ≠ s) :
    (insertByScoreDesc score x l).filter (fun a => score a == s)
      = l.filter (fun a => score a == s) := by
  have hx : (score x == s) = false := beq_eq_false_iff_ne.2 h
  induction l with
  | nil => simp [insertByScoreDesc, List.filter, hx]
  | cons y ys ih =>
    simp only [insertByScoreDesc]
    split
    · simp [List.filter, hx]
    · simp only [List.filter, ih]

/-- Stability of the candidate sort: for every score value, the sublist of
candidates carrying that score is exactly the extraction-order sublist. -/
theorem filter_sortByScoreDesc {α : Type} (score : α → Int) (l : List α) (s : Int) :
    (sortByScoreDesc score l).filter (fun a => score a == s)
      = l.filter (fun a => score a == s) := by
  induction l with
  | nil => simp [sortByScoreDesc]
  | cons x xs ih =>
    simp only [sortByScoreDesc]
    by_cases hs : score x = s
    · subst hs
      rw [filter_insertByScoreDesc_eq, ih]
      simp [List.filter]
    · rw [filter_insertByScoreDesc_ne score x _ s hs, ih]
      simp [List.filter, beq_eq_false_iff_ne.2 hs]

/-! ## Data model -/

/-- `FaviconSource` from `src/types/index.ts`.  The TS interface has no
`isFallback` field, but `analyzePage` attaches one to the fallback-API
candidate at runtime; an absent field is JS-falsy, so it is modelled as a
`Bool` defaulting to `false`. -/
structure FaviconSource where
  url : String
  size : Option Nat := none
  format : Option String := none
  source : String
  score : Int
  isFallback : Bool := false
deriving DecidableEq, Repr

/-- `OGImageSource` from `src/types/index.ts`, with the runtime `isFallback`
flag attached by page-analyzer.ts (absent field = `false`). -/
structure OGImageSource where
  url : String
  width : Option Int := none
  height : Option Int := none
  alt : Option String := none
  type : Option String := none
  source : String
  score : Int
  isFallback : Bool := false
deriving DecidableEq, Repr

/-- `PageMetadata` from `src/lib/metadata-extractor.ts`. -/
structure PageMetadata where
  title : Option String := none
  description : Option String := none
  siteName : Option String := none
deriving DecidableEq, Repr

/-- A `<link>` element's attributes, as read by the extractors. -/
structure LinkEl where
  rel : Option String := none
  href : Option String := none
  sizes : Option String := none
  type : Option String := none
deriving DecidableEq, Repr

/-- A `<meta>` element's attributes. -/
structure MetaEl where
  property : Option String := none
  name : Option String := none
  content : Option String := none
deriving DecidableEq, Repr

/-- One entry of a JSON-LD `image` property: either a plain string URL or an
object with `url`/`width`/`height` fields (JSON numbers as integers). -/
inductive LdImageEntry where
  | strUrl (url : String)
  | objUrl (url : Option String) (width : Option Int) (height : Option Int)
deriving DecidableEq, Repr

/-- One JSON-LD schema object; only its `image` property matters to the
extractor.  `none` models an absent or JS-falsy `image` property; the code's
`Array.isArray(schemaItem.image) ? schemaItem.image : [schemaItem.image]`
normalisation is reflected by always holding a list. -/
structure LdItem where
  image : Option (List LdImageEntry) := none
deriving DecidableEq, Repr

/-- The parsed document handed to the extractors (the cheerio handle).  Each
`ldScripts` entry is one `<script type="application/ld+json">` block:
`none` when its text is empty or `JSON.parse` throws, otherwise the parsed
schema array (a single object is the one-element list). -/
structure PageDoc where
  links : List LinkEl := []
  metas : List MetaEl := []
  title : String := ""
  ldScripts : List (Option (List LdItem)) := []
deriving DecidableEq, Repr

/-- A web-manifest `icons[]` entry (`src/types/index.ts`). -/
structure ManifestIcon where
  src : String
  sizes : Option String := none
  type : Option String := none
deriving DecidableEq, Repr

/-- `protocol`/`hostname` of a successfully constructed WHATWG `URL` (the
`protocol` field includes the trailing `:` as in JS). -/
structure UrlParts where
  protocol : String
  hostname : String
deriving DecidableEq, Repr

/-- The configuration fields the modelled code reads. -/
structure AppConfig where
  USE_FALLBACK_API : Bool
  MAX_IMAGE_SIZE : Nat
deriving DecidableEq, Repr

/-- Outcome environment for one `analyzePage` request.  Each field gives the
result of the corresponding outbound operation: `fetchHtml` is the two-
attempt HTML fetch of the target URL (`none` = both attempts failed, i.e. the
JS call throws) together with the post-redirect final URL; `parseUrl` is the
WHATWG `new URL(_)` constructor (`none` = it throws); `manifest` is the
manifest fetch of the given URL (`none` = network failure, non-2xx, malformed
JSON, or a missing/non-array `icons` field — all of which yield no
candidates). -/
structure PageEnv where
  fetchHtml : String → Option (PageDoc × String)
  parseUrl : String → Option UrlParts
  manifest : String → Option (List ManifestIcon)

/-- `PageAnalysisResult` from page-analyzer.ts. -/
structure PageAnalysisResult where
  favicons : List FaviconSource
  ogImages : List OGImageSource
  metadata : PageMetadata
deriving DecidableEq, Repr

/-- Result of `analyzePage`: either a value or an uncaught exception. -/
inductive AnalyzeOutcome where
  | ok (r : PageAnalysisResult)
  | thrown
deriving DecidableEq, Repr

/-! ## Metadata extractor (`src/lib/metadata-extractor.ts`) -/

/-- `$('meta[property="p"]').attr('content')`: content attribute of the first
meta element whose `property` attribute equals `p`. -/
def metaContentByProperty (doc : PageDoc) (p : String) : Option String :=
  (doc.metas.find? (fun m => m.property == some p)).bind (fun m => m.content)

/-- `$('meta[name="n"]').attr('content')`. -/
def metaContentByName (doc : PageDoc) (n : String) : Option String :=
  (doc.metas.find? (fun m => m.name == some n)).bind (fun m => m.content)

/-- `extractMetadata` from metadata-extractor.ts: priority chains with JS
`||` (empty strings fall through). -/
def extractMetadata (doc : PageDoc) : PageMetadata :=
  { title := jsOrStr (metaContentByProperty doc "og:title")
      (jsOrStr (metaContentByName doc "twitter:title") (some doc.title)),
    description := jsOrStr (metaContentByProperty doc "og:description")
      (jsOrStr (metaContentByName doc "twitter:description") (metaContentByName doc "description")),
    siteName := metaContentByProperty doc "og:site_name" }

/-! ## Favicon candidate extractors (page-analyzer.ts) -/

/-- Format inference for a link-tag icon without a `type` attribute
(page-analyzer.ts lines 160-169): a data URI's MIME prefix
(`/^data:([^;,]+)/`), else the URL's last `.`-separated component
(the whole URL when it has no dot, via `split('.').pop()`). -/
def inferLinkType (href : String) : String :=
  if isDataUrl href then
    let mime := (href.toList.drop 5).takeWhile (fun c => c ≠ ';' ∧ c ≠ ',')
    if mime.isEmpty then "" else String.mk mime
  else
    lastDotComponent href

/-- The candidate one `<link>` element contributes (page-analyzer.ts lines
152-181); `none` when the element is skipped.  The cheerio selector
`link[rel*="icon"]` keeps elements whose `rel` attribute contains "icon". -/
def linkCandidate (baseUrl : String) (el : LinkEl) : Option FaviconSource :=
  match el.rel with
  | none => none
  | some relAttr =>
    if strIncludes relAttr "icon" then
      match el.href with
      | none => none
      | some href =>
        if href = "" then none
        else
          let t0 := el.type.getD ""
          let t1 := if t0 = "" then inferLinkType href else t0
          let sz := parseSizes el.sizes
          some { url := resolveUrl href baseUrl, size := sz, format := some t1,
                 source := "link-tag",
                 score := calculateFaviconScore sz (some t1) relAttr,
                 isFallback := false }
    else none

/-- `extractFaviconFromLinkTags`. -/
def extractFaviconFromLinkTags (doc : PageDoc) (baseUrl : String) : List FaviconSource :=
  doc.links.filterMap (linkCandidate baseUrl)

/-- The two fixed static fallback candidates pushed unconditionally inside
the successful-fetch path (page-analyzer.ts lines 49-60). -/
def staticFallbackCandidates (finalBaseUrl : String) : List FaviconSource :=
  [ { url := finalBaseUrl ++ "/favicon.ico", source := "fallback", score := 10 },
    { url := finalBaseUrl ++ "/apple-touch-icon.png", source := "fallback", score := 20 } ]

/-- The candidate one manifest `icons[]` entry contributes (page-analyzer.ts
lines 204-213); `icon.src` must be JS-truthy. -/
def manifestCandidate (baseUrl : String) (icon : ManifestIcon) : Option FaviconSource :=
  if icon.src ≠ "" then
    some { url := resolveUrl icon.src baseUrl, size := parseSizes icon.sizes,
           format := icon.type, source := "manifest", score := 40, isFallback := false }
  else none

/-- `extractFaviconFromManifest`: zero candidates on any manifest failure. -/
def extractFaviconFromManifest (manifest : Option (List ManifestIcon)) (baseUrl : String) :
    List FaviconSource :=
  match manifest with
  | none => []
  | some icons => icons.filterMap (manifestCandidate baseUrl)

/-! ## OG image extractors (page-analyzer.ts lines 227-358) -/

/-- First pass of `extractOGFromTags`: the image URLs collected from
`og:image` / `og:image:url` / `og:image:secure_url` metas with truthy
content. -/
def ogImageUrls (metas : List MetaEl) : List String :=
  metas.filterMap fun m =>
    match m.property, m.content with
    | some p, some c =>
      if (p = "og:image" ∨ p = "og:image:url" ∨ p = "og:image:secure_url") ∧ c ≠ ""
      then some c else none
    | _, _ => none

/-- Second pass of `extractOGFromTags`: the sub-metadata assigned to the
first collected image.  Each matching meta overwrites the field, so the last
one wins. -/
def lastOgMeta (metas : List MetaEl) (prop : String) : Option String :=
  (metas.filterMap fun m =>
    match m.property, m.content with
    | some p, some c => if p = prop ∧ c ≠ "" then some c else none
    | _, _ => none).getLast?

/-- `extractOGFromTags`: all collected URLs become candidates; only the first
carries the width/height/alt/type sub-metadata (a documented source-format
ambiguity). -/
def extractOGFromTags (doc : PageDoc) (baseUrl : String) : List OGImageSource :=
  match ogImageUrls doc.metas with
  | [] => []
  | u0 :: rest =>
    let w := (lastOgMeta doc.metas "og:image:width").bind jsParseInt
    let h := (lastOgMeta doc.metas "og:image:height").bind jsParseInt
    let ty := lastOgMeta doc.metas "og:image:type"
    { url := resolveUrl u0 baseUrl, width := w, height := h,
      alt := lastOgMeta doc.metas "og:image:alt", type := ty,
      source := "og:image", score := calculateOGScore w h "og:image" ty,
      isFallback := false } ::
    rest.map fun u =>
      { url := resolveUrl u baseUrl, width := none, height := none, alt := none,
        type := none, source := "og:image",
        score := calculateOGScore none none "og:image" none, isFallback := false }

/-- `extractOGFromTwitterTags`. -/
def extractOGFromTwitterTags (doc : PageDoc) (baseUrl : String) : List OGImageSource :=
  match metaContentByName doc "twitter:image" with
  | none => []
  | some t =>
    if t ≠ "" then
      [ { url := resolveUrl t baseUrl, width := none, height := none,
          alt := metaContentByName doc "twitter:image:alt", type := none,
          source := "twitter:image",
          score := calculateOGScore none none "twitter:image" none,
          isFallback := false } ]
    else []

/-- Candidate from one JSON-LD image entry (page-analyzer.ts lines 334-349).
The stored width/height go through `width ? parseInt(String(width)) : undefined`
while the score receives the raw values. -/
def ldImageCandidate (baseUrl : String) (e : LdImageEntry) : Option OGImageSource :=
  match e with
  | .strUrl u =>
    if u ≠ "" then
      some { url := resolveUrl u baseUrl, width := none, height := none, alt := none,
             type := none, source := "schema.org",
             score := calculateOGScore none none "schema.org" none, isFallback := false }
    else none
  | .objUrl u w h =>
    match u with
    | none => none
    | some u' =>
      if u' ≠ "" then
        some { url := resolveUrl u' baseUrl,
               width := if optIntTruthy w then w else none,
               height := if optIntTruthy h then h else none,
               alt := none, type := none, source := "schema.org",
               score := calculateOGScore w h "schema.org" none, isFallback := false }
      else none

/-- Candidates of one JSON-LD schema object. -/
def ldItemImages (baseUrl : String) (item : LdItem) : List OGImageSource :=
  match item.image with
  | none => []
  | some entries => entries.filterMap (ldImageCandidate baseUrl)

/-- Candidates of one `<script type="application/ld+json">` block. -/
def ldBlockImages (baseUrl : String) : Option (List LdItem) → List OGImageSource
  | none => []
  | some items => items.flatMap (ldItemImages baseUrl)

/-- `extractOGFromJsonLd`: per-block failures are skipped silently. -/
def extractOGFromJsonLd (doc : PageDoc) (baseUrl : String) : List OGImageSource :=
  doc.ldScripts.flatMap (ldBlockImages baseUrl)

/-! ## `analyzePage` (page-analyzer.ts lines 24-95) -/

/-- `https://`-prefixing of a scheme-less input (page-analyzer.ts line 34). -/
def ensureProtocol (url : String) : String :=
  if strStartsWith url "http" then url else "https://" ++ url

/-- `${finalParsedUrl.protocol}//${finalParsedUrl.hostname}` (line 40). -/
def finalBase (parts : UrlParts) : String :=
  parts.protocol ++ "//" ++ parts.hostname

/-- The favicon accumulator after the successful try block (lines 47-64). -/
def tryFavicons (env : PageEnv) (doc : PageDoc) (parts : UrlParts) : List FaviconSource :=
  extractFaviconFromLinkTags doc (finalBase parts)
    ++ staticFallbackCandidates (finalBase parts)
    ++ extractFaviconFromManifest
         (env.manifest (finalBase parts ++ "/manifest.json")) (finalBase parts)

/-- The OG-image accumulator after the successful try block (lines 66-69). -/
def tryOGImages (doc : PageDoc) (parts : UrlParts) : List OGImageSource :=
  extractOGFromTags doc (finalBase parts)
    ++ extractOGFromTwitterTags doc (finalBase parts)
    ++ extractOGFromJsonLd doc (finalBase parts)

/-- The `try` block of `analyzePage`: fetch HTML, parse the final URL, run
every extractor.  `none` means some step threw and the catch left the
accumulators empty. -/
def analyzeTry (env : PageEnv) (url : String) :
    Option (List FaviconSource × List OGImageSource × PageMetadata) :=
  match env.fetchHtml (ensureProtocol url) with
  | none => none
  | some (doc, finalUrl) =>
    match env.parseUrl finalUrl with
    | none => none
    | some parts =>
      some (tryFavicons env doc parts, tryOGImages doc parts, extractMetadata doc)

/-- `size || 64` in the fallback-API URL (JS: `0` is falsy). -/
def jsSizeOr64 (size : Option Nat) : Nat :=
  match size with
  | none => 64
  | some n => if n = 0 then 64 else n

/-- The fallback-API section of `analyzePage` (lines 74-88).  It runs outside
any `try`, so a failing `new URL(_)` on the raw input propagates as an
exception (`none`).  Disabled: no extra candidates. -/
def fallbackApiCandidates (env : PageEnv) (config : AppConfig) (url : String)
    (size : Option Nat) : Option (List FaviconSource) :=
  if config.USE_FALLBACK_API then
    match env.parseUrl
        (if strStartsWith (jsTrim url) "http" then jsTrim url
         else "https://" ++ jsTrim url) with
    | none => none
    | some parsed =>
      some [ { url := "https://www.google.com/s2/favicons?domain="
                 ++ encodeURIComponent ("https://" ++ parsed.hostname)
                 ++ "&sz=" ++ toString (jsSizeOr64 size),
               source := "fallback-api", score := 1, isFallback := true } ]
  else some []

/-- The favicon candidate list in extraction order (before sorting). -/
def rawFavicons (env : PageEnv) (config : AppConfig) (url : String) (size : Option Nat) :
    List FaviconSource :=
  ((analyzeTry env url).map (fun t => t.1)).getD []
    ++ (fallbackApiCandidates env config url size).getD []

/-- The OG-image candidate list in extraction order (before sorting). -/
def rawOGImages (env : PageEnv) (url : String) : List OGImageSource :=
  ((analyzeTry env url).map (fun t => t.2.1)).getD []

/-- `analyzePage`: swallow any failure of the try block, then append the
fallback-API candidate (whose URL construction can throw), then return both
candidate lists sorted by score descending. -/
def analyzePage (env : PageEnv) (config : AppConfig) (url : String) (size : Option Nat) :
    AnalyzeOutcome :=
  match fallbackApiCandidates env config url size with
  | none => .thrown
  | some _ =>
    .ok { favicons := sortByScoreDesc (fun f => f.score) (rawFavicons env config url size),
          ogImages := sortByScoreDesc (fun g => g.score) (rawOGImages env url),
          metadata := ((analyzeTry env url).map (fun t => t.2.2)).getD {} }

/-- Favicon list of an `analyzePage` outcome (empty on `thrown`). -/
def resultFavicons : AnalyzeOutcome → List FaviconSource
  | .ok r => r.favicons
  | .thrown => []

/-- OG-image list of an `analyzePage` outcome (empty on `thrown`). -/
def resultOGImages : AnalyzeOutcome → List OGImageSource
  | .ok r => r.ogImages
  | .thrown => []

/-! ## Candidate resolver (OG-finder module, part_000 lines 310-385) -/

/-- Outcome of one candidate-image network fetch: `err` is any thrown
error (network failure, timeout, body-read failure); `response` carries the
HTTP status and the body bytes. -/
inductive FetchOutcome where
  | err
  | response (status : Nat) (bytes : List Nat)
deriving DecidableEq, Repr

/-- Decoded payload of a data URI (`parseDataUrl` from
`src/lib/image-processor.ts`, abstracted: the file is not in the provided
sources and only its success/failure and payload matter here). -/
structure DataUrlPayload where
  buffer : List Nat
  mimeType : String
deriving DecidableEq, Repr

/-- Environment of one `fetchBestOGImage` run: the network fetch outcome per
URL, the data-URI decoder, and the byte-level image validator
(`validateImage` from image-processor.ts, abstracted as a predicate on the
bytes). -/
structure ResolveEnv where
  fetch : String → FetchOutcome
  parseDataUrl : String → Option DataUrlPayload
  validateImage : List Nat → Bool

/-- The record `fetchBestOGImage` returns on success. -/
structure ResolvedImage where
  data : List Nat
  format : String
  source : String
  url : String
  isFallback : Bool
deriving DecidableEq, Repr

/-- `buffer.toString('utf8', 0, 5).includes('<svg')`: the ASCII bytes of
`<svg` occur consecutively within the first five bytes. -/
def svgSniff (buffer : List Nat) : Bool :=
  decide (List.IsInfix [0x3c, 0x73, 0x76, 0x67] (buffer.take 5))

/-- `detectFormat` from part_000 lines 368-385: magic bytes first, then the
declared/hinted format string, defaulting to `png`. -/
def detectFormat (buffer : List Nat) (hint : Option String) : String :=
  if buffer[0]? = some 0x89 ∧ buffer[1]? = some 0x50 then "png"
  else if buffer[0]? = some 0xff ∧ buffer[1]? = some 0xd8 then "jpg"
  else if buffer[0]? = some 0x52 ∧ buffer[1]? = some 0x49 then "webp"
  else if buffer[0]? = some 0x47 ∧ buffer[1]? = some 0x49 ∧ buffer[2]? = some 0x46 then "gif"
  else if svgSniff buffer then "svg"
  else
    let hintStr := hint.getD ""
    if strIncludes hintStr "png" then "png"
    else if strIncludes hintStr "jpeg" || strIncludes hintStr "jpg" then "jpg"
    else if strIncludes hintStr "webp" then "webp"
    else if strIncludes hintStr "svg" then "svg"
    else if strIncludes hintStr "gif" then "gif"
    else "png"

/-- Byte acquisition for one candidate (part_000 lines 318-339): decode the
data URI, or fetch over the network and require `response.ok` (a 2xx
status).  Returns the buffer and the data-URI MIME type. -/
def acquire (env : ResolveEnv) (img : OGImageSource) : Option (List Nat × Option String) :=
  if isDataUrl img.url then
    match env.parseDataUrl img.url with
    | none => none
    | some p => some (p.buffer, some p.mimeType)
  else
    match env.fetch img.url with
    | .err => none
    | .response status bytes =>
      if 200 ≤ status ∧ status ≤ 299 then some (bytes, none) else none

/-- One loop iteration of `fetchBestOGImage` (part_000 lines 315-359):
`none` means the candidate is skipped and the loop continues. -/
def resolveCandidate (env : ResolveEnv) (cfg : AppConfig) (img : OGImageSource) :
    Option ResolvedImage :=
  match acquire env img with
  | none => none
  | some (buffer, mime) =>
    if 0 < buffer.length ∧ buffer.length ≤ cfg.MAX_IMAGE_SIZE then
      if env.validateImage buffer then
        some { data := buffer,
               format := detectFormat buffer (jsOrStr mime img.type),
               source := img.source, url := img.url, isFallback := img.isFallback }
      else none
    else none

/-- One short-circuit step of the scan: keep the current candidate's result,
or continue with the rest of the list. -/
def firstSuccess (cur : Option ResolvedImage) (rec : Unit → Option ResolvedImage) :
    Option ResolvedImage :=
  match cur with
  | some r => some r
  | none => rec ()

/-- `fetchBestOGImage`: first-success-wins linear scan; `null` when every
candidate is skipped. -/
def fetchBestOGImage (env : ResolveEnv) (cfg : AppConfig) :
    List OGImageSource → Option ResolvedImage
  | [] => none
  | img :: rest =>
    firstSuccess (resolveCandidate env cfg img) (fun _ => fetchBestOGImage env cfg rest)

/-- A candidate passes exactly when its bytes are acquired (data-URI decode
succeeds, or the fetch neither errors nor returns a non-2xx status), the
payload is non-empty and within `MAX_IMAGE_SIZE`, and image validation
succeeds. -/
def passes (env : ResolveEnv) (cfg : AppConfig) (img : OGImageSource) : Bool :=
  match acquire env img with
  | none => false
  | some (buffer, _) =>
    decide (0 < buffer.length) && decide (buffer.length ≤ cfg.MAX_IMAGE_SIZE)
      && env.validateImage buffer

/-- One step of the instrumented scan. -/
def tracedStep (fetches : List String) (cur : Option ResolvedImage)
    (rec : Unit → Option ResolvedImage × List String) :
    Option ResolvedImage × List String :=
  match cur with
  | some r => (some r, fetches)
  | none => ((rec ()).1, fetches ++ (rec ()).2)

/-- `fetchBestOGImage` instrumented with the list of URLs for which a network
fetch is issued: an iteration issues one fetch exactly when its candidate's
reference is not a data URI. -/
def fetchBestOGImageTraced (env : ResolveEnv) (cfg : AppConfig) :
    List OGImageSource → Option ResolvedImage × List String
  | [] => (none, [])
  | img :: rest =>
    tracedStep (if isDataUrl img.url then [] else [img.url])
      (resolveCandidate env cfg img)
      (fun _ => fetchBestOGImageTraced env cfg rest)

/-- The candidates the linear scan examines: the prefix up to and including
the first passing one (or the whole list). -/
def attempted (env : ResolveEnv) (cfg : AppConfig) : List OGImageSource → List OGImageSource
  | [] => []
  | img :: rest =>
    if passes env cfg img then [img] else img :: attempted env cfg rest

/-! ## Spec-side format rules (for the `detectFormat` refinement claim) -/

/-- Modelled from the spec's wording of the magic-byte rules: leading bytes
`89 50` → png, `FF D8` → jpg, `52 49` → webp, `47 49 46` → gif, a leading
`<svg` text → svg; `none` when no magic-byte rule matches. -/
def specMagicFormat (buffer : List Nat) : Option String :=
  if buffer[0]? = some 0x89 ∧ buffer[1]? = some 0x50 then some "png"
  else if buffer[0]? = some 0xff ∧ buffer[1]? = some 0xd8 then some "jpg"
  else if buffer[0]? = some 0x52 ∧ buffer[1]? = some 0x49 then some "webp"
  else if buffer[0]? = some 0x47 ∧ buffer[1]? = some 0x49 ∧ buffer[2]? = some 0x46 then some "gif"
  else if svgSniff buffer then some "svg"
  else none

/-- Modelled from the spec's wording of the hint fallback: consult the
declared/hinted format string; if it matches nothing the result is `png`. -/
def specHintFormat (hint : Option String) : String :=
  let hintStr := hint.getD ""
  if strIncludes hintStr "png" then "png"
  else if strIncludes hintStr "jpeg" || strIncludes hintStr "jpg" then "jpg"
  else if strIncludes hintStr "webp" then "webp"
  else if strIncludes hintStr "svg" then "svg"
  else if strIncludes hintStr "gif" then "gif"
  else "png"

/-! ## Fallback handler (`src/index.ts` lines 472-554) -/

/-- What `fetchCustomDefault`/`getCachedFallback` return on success. -/
structure DefaultImage where
  buffer : List Nat
  format : String
  sourceUrl : String
  width : Int
  height : Int
deriving DecidableEq, Repr

/-- What `processImage` returns on success. -/
structure ProcessedImage where
  data : List Nat
  format : String
  width : Int
  height : Int
deriving DecidableEq, Repr

/-- Environment of one `handleFallback` run.  `fetchCustomDefault` is the
per-request fetch+validation of the caller-supplied default URL
(`src/lib/fallback-image.ts`, abstracted; `none` = it throws);
`getCachedFallback` is the process-wide cached default (`none` = it throws);
`processImage` is the external resize/re-encode primitive (`none` = it
throws). -/
structure FallbackEnv where
  fetchCustomDefault : String → Option DefaultImage
  getCachedFallback : Option DefaultImage
  processImage : List Nat → Option Nat → Option String → Option ProcessedImage

/-- `response` query parameter. -/
inductive OutputFormat where
  | image
  | json
deriving DecidableEq, Repr

/-- The favicon info object of the JSON fallback response (the request-echo
`url` field, built from the HTTP-layer request URL, is outside the modelled
core). -/
structure FallbackImageInfo where
  sourceUrl : String
  width : Int
  height : Int
  format : String
  bytes : Nat
  source : String
  isFallback : Bool
deriving DecidableEq, Repr

/-- Result of `handleFallback`: a 200 JSON body, a 200 image body with its
content type, or the 500 `Failed to fetch default image` error produced by
the surrounding catch. -/
inductive FallbackResult where
  | jsonOk (favicon : FallbackImageInfo)
  | imageOk (body : List Nat) (contentType : String)
  | error
deriving DecidableEq, Repr

/-- `handleFallback` from `src/index.ts` lines 472-554: a truthy
`defaultImage` routes to `fetchCustomDefault`, otherwise the cached default
is used; any exception inside the try (fetch, cache access, processing)
becomes the 500 error. -/
def handleFallback (env : FallbackEnv) (response : OutputFormat)
    (defaultImage : Option String) (size : Option Nat) (format : Option String) :
    FallbackResult :=
  match (if optStrTruthy defaultImage then env.fetchCustomDefault (defaultImage.getD "")
         else env.getCachedFallback : Option DefaultImage) with
  | none => .error
  | some img =>
    match (if optNatTruthy size || optStrTruthy format then
             (env.processImage img.buffer size format).map
               (fun p => (p.data, p.format, p.width, p.height))
           else some (img.buffer, img.format, img.width, img.height) :
           Option (List Nat × String × Int × Int)) with
    | none => .error
    | some (buf, fmt, w, h) =>
      match response with
      | .json =>
        .jsonOk { sourceUrl := img.sourceUrl, width := w, height := h, format := fmt,
                  bytes := buf.length, source := "default", isFallback := true }
      | .image =>
        .imageOk buf (if fmt = "svg" then "image/svg+xml" else "image/png")

/-! ## Helper lemmas -/

theorem linkCandidate_fields {baseUrl : String} {el : LinkEl} {f : FaviconSource}
    (h : linkCandidate baseUrl el = some f) :
    f.source = "link-tag" ∧ f.isFallback = false := by
  unfold linkCandidate at h
  split at h
  · exact absurd h (by simp)
  · split at h
    · split at h
      · exact absurd h (by simp)
      · split at h
        · exact absurd h (by simp)
        · simp only [Option.some.injEq] at h
          subst h
          exact ⟨rfl, rfl⟩
    · exact absurd h (by simp)

theorem manifestCandidate_fields {baseUrl : String} {icon : ManifestIcon} {f : FaviconSource}
    (h : manifestCandidate baseUrl icon = some f) :
    f.source = "manifest" ∧ f.isFallback = false := by
  unfold manifestCandidate at h
  split at h
  · simp only [Option.some.injEq] at h
    subst h
    exact ⟨rfl, rfl⟩
  · exact absurd h (by simp)

theorem mem_extractFaviconFromLinkTags {doc : PageDoc} {baseUrl : String} {f : FaviconSource}
    (h : f ∈ extractFaviconFromLinkTags doc baseUrl) :
    f.source = "link-tag" ∧ f.isFallback = false := by
  unfold extractFaviconFromLinkTags at h
  rcases List.mem_filterMap.1 h with ⟨el, _, hel⟩
  exact linkCandidate_fields hel

theorem mem_extractFaviconFromManifest {m : Option (List ManifestIcon)} {baseUrl : String}
    {f : FaviconSource} (h : f ∈ extractFaviconFromManifest m baseUrl) :
    f.source = "manifest" ∧ f.isFallback = false := by
  unfold extractFaviconFromManifest at h
  match m with
  | none => exact absurd h (by simp)
  | some icons =>
    rcases List.mem_filterMap.1 h with ⟨icon, _, hic⟩
    exact manifestCandidate_fields hic

theorem mem_staticFallbackCandidates {finalBaseUrl : String} {f : FaviconSource}
    (h : f ∈ staticFallbackCandidates finalBaseUrl) :
    f.source = "fallback" ∧ f.isFallback = false := by
  unfold staticFallbackCandidates at h
  rcases List.mem_cons.1 h with rfl | h
  · exact ⟨rfl, rfl⟩
  · rcases List.mem_cons.1 h with rfl | h
    · exact ⟨rfl, rfl⟩
    · exact absurd h (by simp)

theorem mem_extractOGFromTags {doc : PageDoc} {baseUrl : String} {g : OGImageSource}
    (h : g ∈ extractOGFromTags doc baseUrl) :
    g.source = "og:image" ∧ g.isFallback = false := by
  unfold extractOGFromTags at h
  split at h
  · exact absurd h (by simp)
  · rcases List.mem_cons.1 h with rfl | h
    · exact ⟨rfl, rfl⟩
    · rcases List.mem_map.1 h with ⟨u, _, hu⟩
      subst hu
      exact ⟨rfl, rfl⟩

theorem mem_extractOGFromTwitterTags {doc : PageDoc} {baseUrl : String} {g : OGImageSource}
    (h : g ∈ extractOGFromTwitterTags doc baseUrl) :
    g.source = "twitter:image" ∧ g.isFallback = false := by
  unfold extractOGFromTwitterTags at h
  split at h
  · exact absurd h (by simp)
  · split at h
    · rcases List.mem_cons.1 h with rfl | h
      · exact ⟨rfl, rfl⟩
      · exact absurd h (by simp)
    · exact absurd h (by simp)

theorem ldImageCandidate_fields {baseUrl : String} {e : LdImageEntry} {g : OGImageSource}
    (h : ldImageCandidate baseUrl e = some g) :
    g.source = "schema.org" ∧ g.isFallback = false := by
  unfold ldImageCandidate at h
  match e with
  | .strUrl u =>
    simp only at h
    split at h
    · simp only [Option.some.injEq] at h
      subst h
      exact ⟨rfl, rfl⟩
    · exact absurd h (by simp)
  | .objUrl u w hh =>
    simp only at h
    match u with
    | none => exact absurd h (by simp)
    | some u' =>
      simp only at h
      split at h
      · simp only [Option.some.injEq] at h
        subst h
        exact ⟨rfl, rfl⟩
      · exact absurd h (by simp)

theorem mem_extractOGFromJsonLd {doc : PageDoc} {baseUrl : String} {g : OGImageSource}
    (h : g ∈ extractOGFromJsonLd doc baseUrl) :
    g.source = "schema.org" ∧ g.isFallback = false := by
  unfold extractOGFromJsonLd at h
  rcases List.mem_flatMap.1 h with ⟨block, _, hblock⟩
  match block with
  | none => exact absurd hblock (by simp [ldBlockImages])
  | some items =>
    rw [ldBlockImages] at hblock
    rcases List.mem_flatMap.1 hblock with ⟨item, _, hitem⟩
    unfold ldItemImages at hitem
    match hi : item.image with
    | none => rw [hi] at hitem; exact absurd hitem (by simp)
    | some entries =>
      rw [hi] at hitem
      rcases List.mem_filterMap.1 hitem with ⟨e, _, he⟩
      exact ldImageCandidate_fields he

theorem mem_fallbackApiCandidates {env : PageEnv} {config : AppConfig} {url : String}
    {size : Option Nat} {fb : List FaviconSource} {f : FaviconSource}
    (hfb : fallbackApiCandidates env config url size = some fb) (h : f ∈ fb) :
    f.source = "fallback-api" ∧ f.isFallback = true := by
  unfold fallbackApiCandidates at hfb
  split at hfb
  · split at hfb
    · exact absurd hfb (by simp)
    · simp only [Option.some.injEq] at hfb
      subst hfb
      rcases List.mem_cons.1 h with rfl | h
      · exact ⟨rfl, rfl⟩
      · exact absurd h (by simp)
  · simp only [Option.some.injEq] at hfb
    subst hfb
    exact absurd h (by simp)

theorem analyzeTry_eq_some {env : PageEnv} {url : String}
    {t : List FaviconSource × List OGImageSource × PageMetadata}
    (ht : analyzeTry env url = some t) :
    ∃ doc finalUrl parts,
      env.fetchHtml (ensureProtocol url) = some (doc, finalUrl)
      ∧ env.parseUrl finalUrl = some parts
      ∧ t = (tryFavicons env doc parts, tryOGImages doc parts, extractMetadata doc) := by
  unfold analyzeTry at ht
  split at ht
  next => exact absurd ht (by simp)
  next doc finalUrl hf =>
    split at ht
    next => exact absurd ht (by simp)
    next parts hp =>
      simp only [Option.some.injEq] at ht
      exact ⟨doc, finalUrl, parts, hf, hp, ht.symm⟩

theorem mem_tryFavicons {env : PageEnv} {doc : PageDoc} {parts : UrlParts} {f : FaviconSource}
    (h : f ∈ tryFavicons env doc parts) :
    f.source = "link-tag" ∧ f.isFallback = false
      ∨ f.source = "fallback" ∧ f.isFallback = false
      ∨ f.source = "manifest" ∧ f.isFallback = false := by
  unfold tryFavicons at h
  rcases List.mem_append.1 h with h | h
  · rcases List.mem_append.1 h with h | h
    · exact Or.inl (mem_extractFaviconFromLinkTags h)
    · exact Or.inr (Or.inl (mem_staticFallbackCandidates h))
  · exact Or.inr (Or.inr (mem_extractFaviconFromManifest h))

theorem mem_tryOGImages {doc : PageDoc} {parts : UrlParts} {g : OGImageSource}
    (h : g ∈ tryOGImages doc parts) : g.isFallback = false := by
  unfold tryOGImages at h
  rcases List.mem_append.1 h with h | h
  · rcases List.mem_append.1 h with h | h
    · exact (mem_extractOGFromTags h).2
    · exact (mem_extractOGFromTwitterTags h).2
  · exact (mem_extractOGFromJsonLd h).2

theorem mem_rawFavicons {env : PageEnv} {config : AppConfig} {url : String}
    {size : Option Nat} {f : FaviconSource}
    (h : f ∈ rawFavicons env config url size) :
    (f.isFallback = true ↔ f.source = "fallback-api") := by
  unfold rawFavicons at h
  rcases List.mem_append.1 h with h | h
  · have hsrc : f.source = "link-tag" ∧ f.isFallback = false
        ∨ f.source = "fallback" ∧ f.isFallback = false
        ∨ f.source = "manifest" ∧ f.isFallback = false := by
      match ht : analyzeTry env url with
      | none => rw [ht] at h; exact absurd h (by simp)
      | some t =>
        rw [ht] at h
        simp only [Option.map_some', Option.getD_some] at h
        rcases analyzeTry_eq_some ht with ⟨doc, finalUrl, parts, _, _, hteq⟩
        rw [hteq] at h
        exact mem_tryFavicons h
    rcases hsrc with ⟨hs, hf⟩ | ⟨hs, hf⟩ | ⟨hs, hf⟩ <;>
      · rw [hs, hf]
        simp
  · match hfb : fallbackApiCandidates env config url size with
    | none => rw [hfb] at h; exact absurd h (by simp)
    | some fb =>
      rw [hfb] at h
      simp only [Option.getD_some] at h
      rcases mem_fallbackApiCandidates hfb h with ⟨hs, hf⟩
      rw [hs, hf]
      simp

theorem mem_rawOGImages {env : PageEnv} {url : String} {g : OGImageSource}
    (h : g ∈ rawOGImages env url) : g.isFallback = false := by
  unfold rawOGImages at h
  match ht : analyzeTry env url with
  | none => rw [ht] at h; exact absurd h (by simp)
  | some t =>
    rw [ht] at h
    simp only [Option.map_some', Option.getD_some] at h
    rcases analyzeTry_eq_some ht with ⟨doc, finalUrl, parts, _, _, hteq⟩
    rw [hteq] at h
    exact mem_tryOGImages h

theorem resolveCandidate_isSome (env : ResolveEnv) (cfg : AppConfig) (img : OGImageSource) :
    (resolveCandidate env cfg img).isSome = passes env cfg img := by
  unfold resolveCandidate passes
  cases hacq : acquire env img with
  | none => rfl
  | some bm =>
    obtain ⟨buffer, mime⟩ := bm
    simp only
    split
    · rename_i hlen
      cases hv : env.validateImage buffer with
      | true => simp [hlen.1, hlen.2, hv]
      | false => simp [hv]
    · rename_i hlen
      rw [Decidable.not_and_iff_or_not] at hlen
      rcases hlen with hlen | hlen
      · simp [decide_eq_false hlen]
      · simp [decide_eq_false hlen]

theorem fetchBestOGImage_cons (env : ResolveEnv) (cfg : AppConfig) (img : OGImageSource)
    (rest : List OGImageSource) :
    fetchBestOGImage env cfg (img :: rest)
      = firstSuccess (resolveCandidate env cfg img)
          (fun _ => fetchBestOGImage env cfg rest) := rfl

theorem fetchBestOGImageTraced_cons (env : ResolveEnv) (cfg : AppConfig) (img : OGImageSource)
    (rest : List OGImageSource) :
    fetchBestOGImageTraced env cfg (img :: rest)
      = tracedStep (if isDataUrl img.url then [] else [img.url])
          (resolveCandidate env cfg img)
          (fun _ => fetchBestOGImageTraced env cfg rest) := rfl

theorem attempted_cons (env : ResolveEnv) (cfg : AppConfig) (img : OGImageSource)
    (rest : List OGImageSource) :
    attempted env cfg (img :: rest)
      = if passes env cfg img then [img] else img :: attempted env cfg rest := rfl

theorem fetchBestOGImage_eq_find (env : ResolveEnv) (cfg : AppConfig)
    (images : List OGImageSource) :
    fetchBestOGImage env cfg images
      = (images.find? (passes env cfg)).bind (resolveCandidate env cfg) := by
  induction images with
  | nil => rfl
  | cons img rest ih =>
    rw [fetchBestOGImage_cons]
    cases hr : resolveCandidate env cfg img with
    | some r =>
      have hp : passes env cfg img = true := by
        rw [← resolveCandidate_isSome, hr]; rfl
      rw [List.find?_cons_of_pos _ hp, Option.some_bind, hr]
      rfl
    | none =>
      have hp : ¬ passes env cfg img = true := by
        rw [← resolveCandidate_isSome, hr]; simp
      rw [List.find?_cons_of_neg _ hp]
      calc firstSuccess none (fun _ => fetchBestOGImage env cfg rest)
          = fetchBestOGImage env cfg rest := rfl
        _ = _ := ih

theorem fetchBestOGImageTraced_fst (env : ResolveEnv) (cfg : AppConfig)
    (images : List OGImageSource) :
    (fetchBestOGImageTraced env cfg images).1 = fetchBestOGImage env cfg images := by
  induction images with
  | nil => rfl
  | cons img rest ih =>
    rw [fetchBestOGImageTraced_cons, fetchBestOGImage_cons]
    cases hr : resolveCandidate env cfg img with
    | some r => rfl
    | none =>
      simp only [tracedStep, firstSuccess]
      exact ih

theorem fetchBestOGImageTraced_snd (env : ResolveEnv) (cfg : AppConfig)
    (images : List OGImageSource) :
    (fetchBestOGImageTraced env cfg images).2
      = ((attempted env cfg images).filter (fun i => !(isDataUrl i.url))).map
          (fun i => i.url) := by
  induction images with
  | nil => rfl
  | cons img rest ih =>
    rw [fetchBestOGImageTraced_cons, attempted_cons]
    cases hr : resolveCandidate env cfg img with
    | some r =>
      have hp : passes env cfg img = true := by
        rw [← resolveCandidate_isSome, hr]; rfl
      rw [if_pos hp]
      simp only [tracedStep]
      cases hd : isDataUrl img.url <;> simp [List.filter_cons, hd]
    | none =>
      have hp : passes env cfg img = false := by
        rw [← resolveCandidate_isSome, hr]; rfl
      simp only [tracedStep]
      cases hd : isDataUrl img.url <;> simp [hp, hd, List.filter_cons, ih]

/-! ## Concrete request fixtures used by witnesses and counterexamples -/

/-- Sample parsed page: one `<link rel="icon" href="/i.png">`. -/
def sampleDoc : PageDoc :=
  { links := [{ rel := some "icon", href := some "/i.png" }],
    metas := [], title := "", ldScripts := [] }

/-- Sample request environment: HTML fetch succeeds, URL parsing succeeds,
manifest fetch fails. -/
def sampleEnv : PageEnv :=
  { fetchHtml := fun _ => some (sampleDoc, "https://e.com/"),
    parseUrl := fun _ => some { protocol := "https:", hostname := "e.com" },
    manifest := fun _ => none }

/-- Sample configuration with the fallback API enabled. -/
def sampleCfg : AppConfig := { USE_FALLBACK_API := true, MAX_IMAGE_SIZE := 5242880 }

def sampleLinkIcon : FaviconSource :=
  { url := "https://e.com/i.png", size := none, format := some "png",
    source := "link-tag", score := 70, isFallback := false }

def sampleApple : FaviconSource :=
  { url := "https://e.com/apple-touch-icon.png", source := "fallback", score := 20 }

def sampleIco : FaviconSource :=
  { url := "https://e.com/favicon.ico", source := "fallback", score := 10 }

def sampleGoogle : FaviconSource :=
  { url := "https://www.google.com/s2/favicons?domain=https%3A%2F%2Fe.com&sz=64",
    source := "fallback-api", score := 1, isFallback := true }

/-- The analysis result of the sample request. -/
def sampleResult : PageAnalysisResult :=
  { favicons := [sampleLinkIcon, sampleApple, sampleIco, sampleGoogle],
    ogImages := [], metadata := { title := some "" } }

/-- Environment where the HTML fetch fails (both user-agent attempts). -/
def envNoHtml : PageEnv :=
  { fetchHtml := fun _ => none,
    parseUrl := fun _ => some { protocol := "https:", hostname := "example.com" },
    manifest := fun _ => none }

/-- Environment where `new URL(_)` always throws. -/
def envBadUrl : PageEnv :=
  { fetchHtml := fun _ => none, parseUrl := fun _ => none, manifest := fun _ => none }

/-- A healthy process-wide cached default image. -/
def cachedPng : DefaultImage :=
  { buffer := [137], format := "png", sourceUrl := "cached-default",
    width := 32, height := 32 }

/-- Fallback environment whose custom-default fetch always throws but whose
cached default is present and healthy. -/
def failEnv : FallbackEnv :=
  { fetchCustomDefault := fun _ => none,
    getCachedFallback := some cachedPng,
    processImage := fun b _ _ =>
      some { data := b, format := "png", width := 32, height := 32 } }

/-- Claim C3: when the caller supplied a default-image URL and fetching or
validating it fails, `handleFallback` fails the whole request with the 500
error, for every possible state of the process-wide cached default — the
pipeline never silently substitutes tier 3. -/
theorem claim3_custom_default_failure_errors (env : FallbackEnv) (response : OutputFormat)
    (d : String) (size : Option Nat) (format : Option String)
    (hd : d ≠ "") (hf : env.fetchCustomDefault d = none) :
    ∀ cached : Option DefaultImage,
      handleFallback { fetchCustomDefault := env.fetchCustomDefault,
                       getCachedFallback := cached,
                       processImage := env.processImage }
        response (some d) size format = FallbackResult.error := by
  intro cached
  unfold handleFallback
  simp [optStrTruthy, hd, hf]

/-- Witness for claim C3. -/
theorem claim3_witness :
    handleFallback failEnv OutputFormat.image
      (some "https://example.com/default.png") none none = FallbackResult.error :=
  claim3_custom_default_failure_errors failEnv OutputFormat.image
    "https://example.com/default.png" none none (by decide) rfl failEnv.getCachedFallback

/-- Claim C4: `fetchBestOGImage` iterates in list order and returns the first
candidate that passes all checks (bytes acquired — data-URI decode succeeds,
or the fetch neither errors nor returns a non-2xx status — payload non-empty
and at most `MAX_IMAGE_SIZE`, image validation succeeds); a candidate is
skipped exactly when it fails one of those checks, and exhausting the list
returns `none` rather than an error. -/
theorem claim4_resolver_scan (env : ResolveEnv) (cfg : AppConfig)
    (images : List OGImageSource) :
    fetchBestOGImage env cfg images
        = (images.find? (passes env cfg)).bind (resolveCandidate env cfg)
    ∧ (∀ img : OGImageSource, (resolveCandidate env cfg img).isSome = passes env cfg img)
    ∧ (fetchBestOGImage env cfg images = none
        ↔ ∀ img ∈ images, passes env cfg img = false) := by
  refine ⟨fetchBestOGImage_eq_find env cfg images, resolveCandidate_isSome env cfg, ?_⟩
  rw [fetchBestOGImage_eq_find]
  constructor
  · intro h img hmem
    cases hf : images.find? (passes env cfg) with
    | none =>
      have := List.find?_eq_none.1 hf img hmem
      simpa using this
    | some i =>
      have hp := List.find?_some hf
      have hs : (resolveCandidate env cfg i).isSome = true := by
        rw [resolveCandidate_isSome]; exact hp
      rw [hf, Option.some_bind] at h
      rw [h] at hs
      exact absurd hs (by simp)
  · intro hall
    cases hf : images.find? (passes env cfg) with
    | none => simp [hf]
    | some i =>
      have hp := List.find?_some hf
      have hmem := List.mem_of_find?_eq_some hf
      rw [hall i hmem] at hp
      exact absurd hp (by simp)

/-- Claim C5: the resolver's fetch log contains exactly one entry per
examined candidate whose reference is not a data URI, in order, and no data
URI ever appears in it — data-URI candidates are decoded without any network
fetch, every other examined candidate is fetched exactly once. -/
theorem claim5_data_uri_no_fetch (env : ResolveEnv) (cfg : AppConfig)
    (images : List OGImageSource) :
    (fetchBestOGImageTraced env cfg images).1 = fetchBestOGImage env cfg images
    ∧ (fetchBestOGImageTraced env cfg images).2
        = ((attempted env cfg images).filter (fun i => !(isDataUrl i.url))).map
            (fun i => i.url)
    ∧ (∀ u ∈ (fetchBestOGImageTraced env cfg images).2, isDataUrl u = false) := by
  refine ⟨fetchBestOGImageTraced_fst env cfg images,
          fetchBestOGImageTraced_snd env cfg images, ?_⟩
  intro u hu
  rw [fetchBestOGImageTraced_snd] at hu
  rcases List.mem_map.1 hu with ⟨i, hi, rfl⟩
  have := List.of_mem_filter hi
  simpa using this

/-- Claim C6: the final format is determined by magic bytes first (`89 50`
png, `FF D8` jpg, `52 49` webp, `47 49 46` gif, a leading `<svg` text svg);
only when no magic-byte rule matches is the declared/hinted format string
consulted, and if the hint matches nothing the result is `png`. -/
theorem claim6_detect_format (buffer : List Nat) (hint : Option String) :
    detectFormat buffer hint = (specMagicFormat buffer).getD (specHintFormat hint) := by
  unfold detectFormat specMagicFormat specHintFormat
  split_ifs <;> rfl

/-- Claim C9: icon scoring is monotonic in declared size — for any two icon
candidates identical except for declared width 256 versus 512, the 512
candidate's score is strictly greater, whatever the shared type and rel. -/
theorem claim9_score_monotonic (type : Option String) (rel : String) :
    calculateFaviconScore (some 256) type rel < calculateFaviconScore (some 512) type rel := by
  unfold calculateFaviconScore
  norm_num

/-- Claim C10: when `USE_FALLBACK_API` is enabled, `analyzePage` throws for
any input whose trimmed, `https://`-prefixed form fails to parse as a URL,
because the fallback-API candidate construction runs `new URL(_)` outside
any error guard (page-analyzer.ts line 77). -/
theorem claim10_fallback_api_throws (env : PageEnv) (config : AppConfig) (url : String)
    (size : Option Nat) (hapi : config.USE_FALLBACK_API = true)
    (hparse : env.parseUrl (if strStartsWith (jsTrim url) "http" then jsTrim url
        else "https://" ++ jsTrim url) = none) :
    analyzePage env config url size = AnalyzeOutcome.thrown := by
  have hfb : fallbackApiCandidates env config url size = none := by
    unfold fallbackApiCandidates
    simp [hapi, hparse]
  unfold analyzePage
  rw [hfb]

/-- Witness for claim C10: with the fallback API enabled and a URL parser
that rejects the whitespace-containing input, `analyzePage` throws. -/
theorem claim10_witness :
    analyzePage envBadUrl sampleCfg "exa mple.com" none = AnalyzeOutcome.thrown :=
  claim10_fallback_api_throws envBadUrl sampleCfg "exa mple.com" none rfl rfl

theorem resolveCandidate_fields {env : ResolveEnv} {cfg : AppConfig} {img : OGImageSource}
    {r : ResolvedImage} (h : resolveCandidate env cfg img = some r) :
    r.source = img.source ∧ r.url = img.url ∧ r.isFallback = img.isFallback := by
  unfold resolveCandidate at h
  split at h
  · exact absurd h (by simp)
  · split at h
    · split at h
      · simp only [Option.some.injEq] at h
        subst h
        exact ⟨rfl, rfl, rfl⟩
      · exact absurd h (by simp)
    · exact absurd h (by simp)

theorem analyzePage_ok {env : PageEnv} {config : AppConfig} {url : String}
    {size : Option Nat} {r : PageAnalysisResult}
    (h : analyzePage env config url size = AnalyzeOutcome.ok r) :
    r.favicons = sortByScoreDesc (fun f => f.score) (rawFavicons env config url size)
    ∧ r.ogImages = sortByScoreDesc (fun g => g.score) (rawOGImages env url) := by
  unfold analyzePage at h
  split at h
  · exact absurd h (by simp)
  · simp only [AnalyzeOutcome.ok.injEq] at h
    subst h
    exact ⟨rfl, rfl⟩

theorem analyzeTry_eq_of {env : PageEnv} {url : String} {doc : PageDoc}
    {finalUrl : String} {parts : UrlParts}
    (hf : env.fetchHtml (ensureProtocol url) = some (doc, finalUrl))
    (hp : env.parseUrl finalUrl = some parts) :
    analyzeTry env url
      = some (tryFavicons env doc parts, tryOGImages doc parts, extractMetadata doc) := by
  unfold analyzeTry
  simp only [hf, hp]

/-- Claim C8: the favicon and OG-image candidate lists handed to the
resolvers are sorted by score in descending order, and candidates with equal
scores keep their relative extraction order (for every score value the
filtered sublist equals the extraction-order sublist). -/
theorem claim8_sorted_stable (env : PageEnv) (config : AppConfig) (url : String)
    (size : Option Nat) (r : PageAnalysisResult)
    (h : analyzePage env config url size = AnalyzeOutcome.ok r) :
    r.favicons.Pairwise (fun a b => b.score ≤ a.score)
    ∧ r.ogImages.Pairwise (fun a b => b.score ≤ a.score)
    ∧ (∀ s : Int, r.favicons.filter (fun f => f.score == s)
        = (rawFavicons env config url size).filter (fun f => f.score == s))
    ∧ (∀ s : Int, r.ogImages.filter (fun g => g.score == s)
        = (rawOGImages env url).filter (fun g => g.score == s)) := by
  obtain ⟨hf, hg⟩ := analyzePage_ok h
  refine ⟨?_, ?_, ?_, ?_⟩
  · rw [hf]; exact pairwise_sortByScoreDesc _ _
  · rw [hg]; exact pairwise_sortByScoreDesc _ _
  · intro s; rw [hf]; exact filter_sortByScoreDesc _ _ s
  · intro s; rw [hg]; exact filter_sortByScoreDesc _ _ s

/-- Witness for claim C8. -/
theorem claim8_witness :
    sampleResult.favicons.Pairwise (fun a b => b.score ≤ a.score) :=
  (claim8_sorted_stable sampleEnv sampleCfg "e.com" none sampleResult (by decide)).1

/-- Claim C2 (amended): whenever the page HTML is successfully fetched and
its final URL parses, the favicon candidate list contains the two fixed
static fallback candidates `{origin}/favicon.ico` (score 10) and
`{origin}/apple-touch-icon.png` (score 20), regardless of the markup
content. -/
theorem claim2_amended (env : PageEnv) (config : AppConfig) (url : String)
    (size : Option Nat) (doc : PageDoc) (finalUrl : String) (parts : UrlParts)
    (r : PageAnalysisResult)
    (hfetch : env.fetchHtml (ensureProtocol url) = some (doc, finalUrl))
    (hparse : env.parseUrl finalUrl = some parts)
    (hok : analyzePage env config url size = AnalyzeOutcome.ok r) :
    ({ url := finalBase parts ++ "/favicon.ico", source := "fallback", score := 10 }
        : FaviconSource) ∈ r.favicons
    ∧ ({ url := finalBase parts ++ "/apple-touch-icon.png", source := "fallback",
         score := 20 } : FaviconSource) ∈ r.favicons := by
  obtain ⟨hfav, _⟩ := analyzePage_ok hok
  have hraw : rawFavicons env config url size
      = tryFavicons env doc parts ++ (fallbackApiCandidates env config url size).getD [] := by
    unfold rawFavicons
    rw [analyzeTry_eq_of hfetch hparse]
    rfl
  constructor
  · rw [hfav, mem_sortByScoreDesc, hraw]
    apply List.mem_append_left
    unfold tryFavicons
    apply List.mem_append_left
    apply List.mem_append_right
    exact List.mem_cons_self _ _
  · rw [hfav, mem_sortByScoreDesc, hraw]
    apply List.mem_append_left
    unfold tryFavicons
    apply List.mem_append_left
    apply List.mem_append_right
    exact List.mem_cons_of_mem _ (List.mem_cons_self _ _)

/-- Witness for claim C2. -/
theorem claim2_witness :
    ({ url := "https://e.com/favicon.ico", source := "fallback", score := 10 }
        : FaviconSource) ∈ sampleResult.favicons :=
  (claim2_amended sampleEnv sampleCfg "e.com" none sampleDoc "https://e.com/"
    { protocol := "https:", hostname := "e.com" } sampleResult rfl rfl (by decide)).1

/-- Counterexample for claim C2: when the page's HTML could not be fetched,
`analyzePage` still returns (it does not throw) but its favicon list contains
neither static fallback candidate. -/
theorem claim2_counterexample :
    analyzePage envNoHtml sampleCfg "example.com" none ≠ AnalyzeOutcome.thrown
    ∧ ((resultFavicons (analyzePage envNoHtml sampleCfg "example.com" none)).all
        (fun f => f.url != "https://example.com/favicon.ico"
          && f.url != "https://example.com/apple-touch-icon.png")) = true := by
  decide

/-- Claim C1 (amended): in the candidate lists produced by `analyzePage`,
`isFallback` is true iff `sourceTag = "fallback-api"` (so static-fallback
candidates carry `isFallback = false`); OG candidates always carry
`isFallback = false`; and the resolver's `ResolvedAsset` inherits the winning
candidate's `isFallback` and `sourceTag` unchanged. -/
theorem claim1_amended (env : PageEnv) (config : AppConfig) (url : String)
    (size : Option Nat) (r : PageAnalysisResult)
    (hok : analyzePage env config url size = AnalyzeOutcome.ok r) :
    (∀ f ∈ r.favicons, (f.isFallback = true ↔ f.source = "fallback-api"))
    ∧ (∀ g ∈ r.ogImages, g.isFallback = false)
    ∧ (∀ (renv : ResolveEnv) (rcfg : AppConfig) (images : List OGImageSource)
        (a : ResolvedImage), fetchBestOGImage renv rcfg images = some a →
          ∃ i ∈ images, a.isFallback = i.isFallback ∧ a.source = i.source) := by
  obtain ⟨hf, hg⟩ := analyzePage_ok hok
  refine ⟨?_, ?_, ?_⟩
  · intro f hmem
    rw [hf, mem_sortByScoreDesc] at hmem
    exact mem_rawFavicons hmem
  · intro g hmem
    rw [hg, mem_sortByScoreDesc] at hmem
    exact mem_rawOGImages hmem
  · intro renv rcfg images a ha
    rw [fetchBestOGImage_eq_find] at ha
    cases hfind : images.find? (passes renv rcfg) with
    | none => rw [hfind] at ha; exact absurd ha (by simp)
    | some i =>
      rw [hfind, Option.some_bind] at ha
      rcases resolveCandidate_fields ha with ⟨hs, _, hfb⟩
      exact ⟨i, List.mem_of_find?_eq_some hfind, hfb, hs⟩

/-- Counterexample for claim C1: a concrete `analyzePage` run produces a
candidate whose source is the static fallback location `"fallback"` with
`isFallback = false`, refuting the claimed iff. -/
theorem claim1_counterexample :
    ((resultFavicons (analyzePage sampleEnv sampleCfg "e.com" none)).any
      (fun f => f.source == "fallback" && f.isFallback == false)) = true := by
  decide

/-- Witness for claim C1. -/
theorem claim1_witness :
    (sampleGoogle.isFallback = true ↔ sampleGoogle.source = "fallback-api") :=
  (claim1_amended sampleEnv sampleCfg "e.com" none sampleResult (by decide)).1
    sampleGoogle (by decide)

/-- Counterexample for claim C7: the reference `ftp://files.example.com/icon.png`
carries a URI scheme but is not returned unchanged — it is prefixed with the
base origin plus `/`. -/
theorem claim7_counterexample :
    resolveUrl "ftp://files.example.com/icon.png" "https://example.com"
        = "https://example.com/ftp://files.example.com/icon.png"
    ∧ ¬ resolveUrl "ftp://files.example.com/icon.png" "https://example.com"
        = "ftp://files.example.com/icon.png" := by
  decide

/-- Claim C7 (amended): data URIs pass through unchanged; references
starting with `http` pass through unchanged; `//...` is prefixed with
`https:`; `/...` is prefixed with the base origin; anything else (including
other URI schemes) is prefixed with the base origin plus a single `/`. -/
theorem claim7_amended (url baseUrl : String) :
    (isDataUrl url = true → resolveUrl url baseUrl = url)
    ∧ (isDataUrl url = false → strStartsWith url "http" = true →
        resolveUrl url baseUrl = url)
    ∧ (isDataUrl url = false → strStartsWith url "http" = false →
        strStartsWith url "//" = true → resolveUrl url baseUrl = "https:" ++ url)
    ∧ (isDataUrl url = false → strStartsWith url "http" = false →
        strStartsWith url "//" = false → strStartsWith url "/" = true →
        resolveUrl url baseUrl = baseUrl ++ url)
    ∧ (isDataUrl url = false → strStartsWith url "http" = false →
        strStartsWith url "//" = false → strStartsWith url "/" = false →
        resolveUrl url baseUrl = baseUrl ++ "/" ++ url) := by
  refine ⟨?_, ?_, ?_, ?_, ?_⟩
  · intro h1; simp [resolveUrl, h1]
  · intro h1 h2; simp [resolveUrl, h1, h2]
  · intro h1 h2 h3; simp [resolveUrl, h1, h2, h3]
  · intro h1 h2 h3 h4; simp [resolveUrl, h1, h2, h3, h4]
  · intro h1 h2 h3 h4; simp [resolveUrl, h1, h2, h3, h4]

/-- Witness for claim C7. -/
theorem claim7_witness :
    resolveUrl "http://cdn.example.com/a.png" "https://example.com"
      = "http://cdn.example.com/a.png" :=
  (claim7_amended "http://cdn.example.com/a.png" "https://example.com").2.1
    (by decide) (by decide)
